import Mathlib

/-!
Verification of the geospatial ETL utility (bbox calculator, data exporter,
API downloader, Box configuration) against its natural-language specification.

The Python source is shallowly embedded: coordinates (Python floats used as
real numbers) become rationals, fallible operations return `Option` or a
dedicated result type, filesystem and network effects are abstracted as
oracle parameters, and `while` loops that are not structurally terminating
are modelled with an explicit fuel argument (`none` = the loop has not
finished within the given fuel; a result independent of the fuel is a
terminating run).
-/

/-- `config.py` `BoundingBox`: a geographic bounding box with four
coordinate fields. -/
structure BoundingBox where
  min_lon : ℚ
  min_lat : ℚ
  max_lon : ℚ
  max_lat : ℚ
deriving DecidableEq, Repr

/-- `bbox_calculator.py` `BBoxCalculator.calculate_union`: raises
`ValueError` on an empty list (modelled as `none`); otherwise takes the
per-axis `min` of the minima and `max` of the maxima, written as the fold
that Python's `min`/`max` over a generator performs. -/
def calculate_union : List BoundingBox → Option BoundingBox
  | [] => none
  | b :: bs =>
    some ⟨bs.foldl (fun m x => min m x.min_lon) b.min_lon,
          bs.foldl (fun m x => min m x.min_lat) b.min_lat,
          bs.foldl (fun m x => max m x.max_lon) b.max_lon,
          bs.foldl (fun m x => max m x.max_lat) b.max_lat⟩

/-- Result of `BBoxCalculator.calculate_intersection`: `error` models the
`ValueError` raised on an empty input list, `noIntersection` models the
`None` return for a degenerate result, `box` the normal return. -/
inductive IntersectResult where
  | error : IntersectResult
  | noIntersection : IntersectResult
  | box : BoundingBox → IntersectResult
deriving DecidableEq, Repr

/-- `bbox_calculator.py` `BBoxCalculator.calculate_intersection`: per-axis
`max` of minima and `min` of maxima; `None` when `min_lon >= max_lon` or
`min_lat >= max_lat` (the degeneracy check before constructing the box). -/
def calculate_intersection : List BoundingBox → IntersectResult
  | [] => .error
  | b :: bs =>
    if bs.foldl (fun m x => min m x.max_lon) b.max_lon ≤
         bs.foldl (fun m x => max m x.min_lon) b.min_lon ∨
       bs.foldl (fun m x => min m x.max_lat) b.max_lat ≤
         bs.foldl (fun m x => max m x.min_lat) b.min_lat then
      .noIntersection
    else
      .box ⟨bs.foldl (fun m x => max m x.min_lon) b.min_lon,
            bs.foldl (fun m x => max m x.min_lat) b.min_lat,
            bs.foldl (fun m x => min m x.max_lon) b.max_lon,
            bs.foldl (fun m x => min m x.max_lat) b.max_lat⟩

/-! Helper lemmas about the `min`/`max` folds that embed Python's `min(...)`
and `max(...)` over a generator. -/

theorem foldlMin_le_init {α : Type} (f : α → ℚ) :
    ∀ (l : List α) (a : ℚ), l.foldl (fun m x => min m (f x)) a ≤ a
  | [], _ => le_refl _
  | c :: cs, a => le_trans (foldlMin_le_init f cs (min a (f c))) (min_le_left _ _)

theorem foldlMax_init_le {α : Type} (f : α → ℚ) :
    ∀ (l : List α) (a : ℚ), a ≤ l.foldl (fun m x => max m (f x)) a
  | [], _ => le_refl _
  | c :: cs, a => le_trans (le_max_left _ _) (foldlMax_init_le f cs (max a (f c)))

theorem foldlMin_le_mem {α : Type} (f : α → ℚ) :
    ∀ (l : List α) (a : ℚ) (x : α), x ∈ l → l.foldl (fun m y => min m (f y)) a ≤ f x := by
  intro l
  induction l with
  | nil => intro a x hx; cases hx
  | cons c cs ih =>
    intro a x hx
    rcases List.mem_cons.mp hx with h | h
    · subst h
      exact le_trans (foldlMin_le_init f cs (min a (f x))) (min_le_right _ _)
    · exact ih (min a (f c)) x h

theorem foldlMax_mem_le {α : Type} (f : α → ℚ) :
    ∀ (l : List α) (a : ℚ) (x : α), x ∈ l → f x ≤ l.foldl (fun m y => max m (f y)) a := by
  intro l
  induction l with
  | nil => intro a x hx; cases hx
  | cons c cs ih =>
    intro a x hx
    rcases List.mem_cons.mp hx with h | h
    · subst h
      exact le_trans (le_max_right _ _) (foldlMax_init_le f cs (max a (f x)))
    · exact ih (max a (f c)) x h

theorem foldlMin_attained {α : Type} (f : α → ℚ) :
    ∀ (l : List α) (a : ℚ),
      l.foldl (fun m y => min m (f y)) a = a ∨
        ∃ x ∈ l, l.foldl (fun m y => min m (f y)) a = f x := by
  intro l
  induction l with
  | nil => intro a; exact Or.inl rfl
  | cons c cs ih =>
    intro a
    rcases ih (min a (f c)) with h | ⟨x, hx, hfx⟩
    · rcases le_total a (f c) with hle | hle
      · exact Or.inl (by rw [List.foldl_cons, h, min_eq_left hle])
      · exact Or.inr ⟨c, List.mem_cons_self c cs,
          by rw [List.foldl_cons, h, min_eq_right hle]⟩
    · exact Or.inr ⟨x, List.mem_cons_of_mem c hx, by rw [List.foldl_cons, hfx]⟩

theorem foldlMax_attained {α : Type} (f : α → ℚ) :
    ∀ (l : List α) (a : ℚ),
      l.foldl (fun m y => max m (f y)) a = a ∨
        ∃ x ∈ l, l.foldl (fun m y => max m (f y)) a = f x := by
  intro l
  induction l with
  | nil => intro a; exact Or.inl rfl
  | cons c cs ih =>
    intro a
    rcases ih (max a (f c)) with h | ⟨x, hx, hfx⟩
    · rcases le_total a (f c) with hle | hle
      · exact Or.inr ⟨c, List.mem_cons_self c cs,
          by rw [List.foldl_cons, h, max_eq_right hle]⟩
      · exact Or.inl (by rw [List.foldl_cons, h, max_eq_left hle])
    · exact Or.inr ⟨x, List.mem_cons_of_mem c hx, by rw [List.foldl_cons, hfx]⟩

/-- The fold starting from the head's field is bounded by every member of
the whole (cons) list. -/
theorem foldlMin_cons_le {α : Type} (f : α → ℚ) (b : α) (bs : List α) {x : α}
    (hx : x ∈ b :: bs) : bs.foldl (fun m y => min m (f y)) (f b) ≤ f x := by
  rcases List.mem_cons.mp hx with h | h
  · subst h; exact foldlMin_le_init f bs (f x)
  · exact foldlMin_le_mem f bs (f b) x h

theorem foldlMax_cons_le {α : Type} (f : α → ℚ) (b : α) (bs : List α) {x : α}
    (hx : x ∈ b :: bs) : f x ≤ bs.foldl (fun m y => max m (f y)) (f b) := by
  rcases List.mem_cons.mp hx with h | h
  · subst h; exact foldlMax_init_le f bs (f x)
  · exact foldlMax_mem_le f bs (f b) x h

/-- The fold starting from the head's field is attained by some member of
the whole (cons) list. -/
theorem foldlMin_cons_attained {α : Type} (f : α → ℚ) (b : α) (bs : List α) :
    ∃ x ∈ b :: bs, bs.foldl (fun m y => min m (f y)) (f b) = f x := by
  rcases foldlMin_attained f bs (f b) with h | ⟨x, hx, hfx⟩
  · exact ⟨b, List.mem_cons_self b bs, h⟩
  · exact ⟨x, List.mem_cons_of_mem b hx, hfx⟩

theorem foldlMax_cons_attained {α : Type} (f : α → ℚ) (b : α) (bs : List α) :
    ∃ x ∈ b :: bs, bs.foldl (fun m y => max m (f y)) (f b) = f x := by
  rcases foldlMax_attained f bs (f b) with h | ⟨x, hx, hfx⟩
  · exact ⟨b, List.mem_cons_self b bs, h⟩
  · exact ⟨x, List.mem_cons_of_mem b hx, hfx⟩

/-- C1: `calculate_union` fails on the empty list, is the identity on a
singleton, and on any non-empty list returns the box whose minima are
per-axis minima of the inputs' minima (lower bound and attained) and whose
maxima are per-axis maxima of the inputs' maxima (upper bound and
attained). -/
theorem c1_calculate_union_spec :
    calculate_union ([] : List BoundingBox) = none ∧
    (∀ b : BoundingBox, calculate_union [b] = some b) ∧
    ∀ (b : BoundingBox) (bs : List BoundingBox) (u : BoundingBox),
      calculate_union (b :: bs) = some u →
      (∀ x ∈ b :: bs, u.min_lon ≤ x.min_lon ∧ u.min_lat ≤ x.min_lat ∧
                      x.max_lon ≤ u.max_lon ∧ x.max_lat ≤ u.max_lat) ∧
      (∃ x ∈ b :: bs, u.min_lon = x.min_lon) ∧
      (∃ x ∈ b :: bs, u.min_lat = x.min_lat) ∧
      (∃ x ∈ b :: bs, u.max_lon = x.max_lon) ∧
      (∃ x ∈ b :: bs, u.max_lat = x.max_lat) := by
  refine ⟨rfl, fun b => rfl, ?_⟩
  intro b bs u hu
  have hu' : u = ⟨bs.foldl (fun m x => min m x.min_lon) b.min_lon,
                  bs.foldl (fun m x => min m x.min_lat) b.min_lat,
                  bs.foldl (fun m x => max m x.max_lon) b.max_lon,
                  bs.foldl (fun m x => max m x.max_lat) b.max_lat⟩ :=
    (Option.some.injEq _ _).mp hu.symm
  subst hu'
  refine ⟨?_, ?_, ?_, ?_, ?_⟩
  · intro x hx
    exact ⟨foldlMin_cons_le BoundingBox.min_lon b bs hx,
           foldlMin_cons_le BoundingBox.min_lat b bs hx,
           foldlMax_cons_le BoundingBox.max_lon b bs hx,
           foldlMax_cons_le BoundingBox.max_lat b bs hx⟩
  · exact foldlMin_cons_attained BoundingBox.min_lon b bs
  · exact foldlMin_cons_attained BoundingBox.min_lat b bs
  · exact foldlMax_cons_attained BoundingBox.max_lon b bs
  · exact foldlMax_cons_attained BoundingBox.max_lat b bs

/-- Witness for C1: the third conjunct applied to a concrete two-box list,
its hypothesis discharged by evaluation. -/
theorem c1_calculate_union_witness :
    (∀ x ∈ [(⟨0, 0, 1, 1⟩ : BoundingBox), ⟨-1, 2, 3, 0⟩],
       (⟨-1, 0, 3, 1⟩ : BoundingBox).min_lon ≤ x.min_lon ∧
       (⟨-1, 0, 3, 1⟩ : BoundingBox).min_lat ≤ x.min_lat ∧
       x.max_lon ≤ (⟨-1, 0, 3, 1⟩ : BoundingBox).max_lon ∧
       x.max_lat ≤ (⟨-1, 0, 3, 1⟩ : BoundingBox).max_lat) ∧
    (∃ x ∈ [(⟨0, 0, 1, 1⟩ : BoundingBox), ⟨-1, 2, 3, 0⟩],
       (⟨-1, 0, 3, 1⟩ : BoundingBox).min_lon = x.min_lon) ∧
    (∃ x ∈ [(⟨0, 0, 1, 1⟩ : BoundingBox), ⟨-1, 2, 3, 0⟩],
       (⟨-1, 0, 3, 1⟩ : BoundingBox).min_lat = x.min_lat) ∧
    (∃ x ∈ [(⟨0, 0, 1, 1⟩ : BoundingBox), ⟨-1, 2, 3, 0⟩],
       (⟨-1, 0, 3, 1⟩ : BoundingBox).max_lon = x.max_lon) ∧
    (∃ x ∈ [(⟨0, 0, 1, 1⟩ : BoundingBox), ⟨-1, 2, 3, 0⟩],
       (⟨-1, 0, 3, 1⟩ : BoundingBox).max_lat = x.max_lat) :=
  c1_calculate_union_spec.2.2 ⟨0, 0, 1, 1⟩ [⟨-1, 2, 3, 0⟩] ⟨-1, 0, 3, 1⟩
    (by simp [calculate_union])

/-- The degeneracy condition tested by `calculate_intersection` holds
exactly when some input's min bound on an axis is at or beyond some
input's max bound on the same axis. -/
theorem intersection_degenerate_iff (b : BoundingBox) (bs : List BoundingBox) :
    (bs.foldl (fun m x => min m x.max_lon) b.max_lon ≤
       bs.foldl (fun m x => max m x.min_lon) b.min_lon ∨
     bs.foldl (fun m x => min m x.max_lat) b.max_lat ≤
       bs.foldl (fun m x => max m x.min_lat) b.min_lat) ↔
    (∃ x ∈ b :: bs, ∃ y ∈ b :: bs, y.max_lon ≤ x.min_lon) ∨
    (∃ x ∈ b :: bs, ∃ y ∈ b :: bs, y.max_lat ≤ x.min_lat) := by
  constructor
  · intro h
    rcases h with h | h
    · obtain ⟨x, hx, hxe⟩ := foldlMax_cons_attained BoundingBox.min_lon b bs
      obtain ⟨y, hy, hye⟩ := foldlMin_cons_attained BoundingBox.max_lon b bs
      exact Or.inl ⟨x, hx, y, hy, by rw [← hye, ← hxe]; exact h⟩
    · obtain ⟨x, hx, hxe⟩ := foldlMax_cons_attained BoundingBox.min_lat b bs
      obtain ⟨y, hy, hye⟩ := foldlMin_cons_attained BoundingBox.max_lat b bs
      exact Or.inr ⟨x, hx, y, hy, by rw [← hye, ← hxe]; exact h⟩
  · intro h
    rcases h with ⟨x, hx, y, hy, hxy⟩ | ⟨x, hx, y, hy, hxy⟩
    · exact Or.inl (le_trans (foldlMin_cons_le BoundingBox.max_lon b bs hy)
        (le_trans hxy (foldlMax_cons_le BoundingBox.min_lon b bs hx)))
    · exact Or.inr (le_trans (foldlMin_cons_le BoundingBox.max_lat b bs hy)
        (le_trans hxy (foldlMax_cons_le BoundingBox.min_lat b bs hx)))

/-- C2: `calculate_intersection` fails on the empty list; on a non-empty
list it returns `noIntersection` exactly when the per-axis max-of-minima /
min-of-maxima box is degenerate (some min bound meets or passes some max
bound on the same axis), and any box it returns has each min field equal to
the maximum of the inputs' min fields (upper bound on them and attained),
each max field equal to the minimum of the inputs' max fields, and is
strictly non-degenerate on both axes. -/
theorem c2_calculate_intersection_spec :
    calculate_intersection ([] : List BoundingBox) = .error ∧
    ∀ (b : BoundingBox) (bs : List BoundingBox),
      (calculate_intersection (b :: bs) = .noIntersection ↔
        (∃ x ∈ b :: bs, ∃ y ∈ b :: bs, y.max_lon ≤ x.min_lon) ∨
        (∃ x ∈ b :: bs, ∃ y ∈ b :: bs, y.max_lat ≤ x.min_lat)) ∧
      ∀ r, calculate_intersection (b :: bs) = .box r →
        (∀ x ∈ b :: bs, x.min_lon ≤ r.min_lon ∧ x.min_lat ≤ r.min_lat ∧
                        r.max_lon ≤ x.max_lon ∧ r.max_lat ≤ x.max_lat) ∧
        (∃ x ∈ b :: bs, r.min_lon = x.min_lon) ∧
        (∃ x ∈ b :: bs, r.min_lat = x.min_lat) ∧
        (∃ x ∈ b :: bs, r.max_lon = x.max_lon) ∧
        (∃ x ∈ b :: bs, r.max_lat = x.max_lat) ∧
        r.min_lon < r.max_lon ∧ r.min_lat < r.max_lat := by
  refine ⟨rfl, ?_⟩
  intro b bs
  constructor
  · constructor
    · intro h
      by_cases hc : bs.foldl (fun m x => min m x.max_lon) b.max_lon ≤
          bs.foldl (fun m x => max m x.min_lon) b.min_lon ∨
          bs.foldl (fun m x => min m x.max_lat) b.max_lat ≤
          bs.foldl (fun m x => max m x.min_lat) b.min_lat
      · exact (intersection_degenerate_iff b bs).mp hc
      · exfalso
        simp only [calculate_intersection] at h
        rw [if_neg hc] at h
        exact IntersectResult.noConfusion h
    · intro h
      have hc := (intersection_degenerate_iff b bs).mpr h
      simp only [calculate_intersection]
      rw [if_pos hc]
  · intro r hr
    by_cases hc : bs.foldl (fun m x => min m x.max_lon) b.max_lon ≤
        bs.foldl (fun m x => max m x.min_lon) b.min_lon ∨
        bs.foldl (fun m x => min m x.max_lat) b.max_lat ≤
        bs.foldl (fun m x => max m x.min_lat) b.min_lat
    · exfalso
      simp only [calculate_intersection] at hr
      rw [if_pos hc] at hr
      exact IntersectResult.noConfusion hr
    · simp only [calculate_intersection] at hr
      rw [if_neg hc] at hr
      have hr' : r = ⟨bs.foldl (fun m x => max m x.min_lon) b.min_lon,
                      bs.foldl (fun m x => max m x.min_lat) b.min_lat,
                      bs.foldl (fun m x => min m x.max_lon) b.max_lon,
                      bs.foldl (fun m x => min m x.max_lat) b.max_lat⟩ := by
        cases hr; rfl
      subst hr'
      rw [not_or] at hc
      refine ⟨?_, ?_, ?_, ?_, ?_, ?_, ?_⟩
      · intro x hx
        exact ⟨foldlMax_cons_le BoundingBox.min_lon b bs hx,
               foldlMax_cons_le BoundingBox.min_lat b bs hx,
               foldlMin_cons_le BoundingBox.max_lon b bs hx,
               foldlMin_cons_le BoundingBox.max_lat b bs hx⟩
      · exact foldlMax_cons_attained BoundingBox.min_lon b bs
      · exact foldlMax_cons_attained BoundingBox.min_lat b bs
      · exact foldlMin_cons_attained BoundingBox.max_lon b bs
      · exact foldlMin_cons_attained BoundingBox.max_lat b bs
      · exact lt_of_not_le hc.1
      · exact lt_of_not_le hc.2

/-- Witness for C2: the degeneracy direction of the equivalence applied to
a concrete pair of separated boxes. -/
theorem c2_calculate_intersection_witness :
    calculate_intersection [(⟨0, 0, 1, 1⟩ : BoundingBox), ⟨5, 5, 6, 6⟩] =
      .noIntersection :=
  ((c2_calculate_intersection_spec.2 ⟨0, 0, 1, 1⟩ [⟨5, 5, 6, 6⟩]).1).mpr
    (Or.inl ⟨⟨5, 5, 6, 6⟩, by simp, ⟨0, 0, 1, 1⟩, by simp, by norm_num⟩)

/-- C3 counterexample: for the degenerate box with all four coordinates 0,
the intersection of two identical boxes is reported as "no intersection",
not the box itself, because the degeneracy check `min >= max` fires. -/
theorem c3_intersection_counterexample :
    calculate_intersection [(⟨0, 0, 0, 0⟩ : BoundingBox), ⟨0, 0, 0, 0⟩] =
      .noIntersection ∧
    calculate_intersection [(⟨0, 0, 0, 0⟩ : BoundingBox), ⟨0, 0, 0, 0⟩] ≠
      .box ⟨0, 0, 0, 0⟩ := by
  constructor
  · simp [calculate_intersection]
  · simp [calculate_intersection]

/-- C3 (amended): the intersection of two identical boxes returns that box
unchanged when the box is non-degenerate (min strictly below max on both
axes); a degenerate box paired with itself, and any two disjoint boxes
(separated or touching on some axis), yield "no intersection". -/
theorem c3_intersection_idem_disjoint :
    (∀ b : BoundingBox, b.min_lon < b.max_lon → b.min_lat < b.max_lat →
       calculate_intersection [b, b] = .box b) ∧
    (∀ b : BoundingBox, b.max_lon ≤ b.min_lon ∨ b.max_lat ≤ b.min_lat →
       calculate_intersection [b, b] = .noIntersection) ∧
    (∀ b1 b2 : BoundingBox,
       b1.max_lon ≤ b2.min_lon ∨ b2.max_lon ≤ b1.min_lon ∨
       b1.max_lat ≤ b2.min_lat ∨ b2.max_lat ≤ b1.min_lat →
       calculate_intersection [b1, b2] = .noIntersection) := by
  refine ⟨?_, ?_, ?_⟩
  · intro b h1 h2
    simp only [calculate_intersection, List.foldl_cons, List.foldl_nil,
      min_self, max_self]
    rw [if_neg]
    push_neg
    exact ⟨h1, h2⟩
  · intro b h
    simp only [calculate_intersection, List.foldl_cons, List.foldl_nil,
      min_self, max_self]
    rw [if_pos h]
  · intro b1 b2 h
    simp only [calculate_intersection, List.foldl_cons, List.foldl_nil]
    rw [if_pos]
    rcases h with h | h | h | h
    · exact Or.inl (le_trans (min_le_left _ _) (le_trans h (le_max_right _ _)))
    · exact Or.inl (le_trans (min_le_right _ _) (le_trans h (le_max_left _ _)))
    · exact Or.inr (le_trans (min_le_left _ _) (le_trans h (le_max_right _ _)))
    · exact Or.inr (le_trans (min_le_right _ _) (le_trans h (le_max_left _ _)))

/-- Witness for C3's amended theorem: a concrete non-degenerate box
intersected with itself, and a concrete disjoint pair. -/
theorem c3_intersection_witness :
    calculate_intersection [(⟨0, 0, 1, 1⟩ : BoundingBox), ⟨0, 0, 1, 1⟩] =
      .box ⟨0, 0, 1, 1⟩ ∧
    calculate_intersection [(⟨0, 0, 1, 1⟩ : BoundingBox), ⟨2, 2, 3, 3⟩] =
      .noIntersection :=
  ⟨c3_intersection_idem_disjoint.1 ⟨0, 0, 1, 1⟩ (by norm_num) (by norm_num),
   c3_intersection_idem_disjoint.2.2 ⟨0, 0, 1, 1⟩ ⟨2, 2, 3, 3⟩
     (Or.inl (by norm_num))⟩

/-- ASCII lowercasing, modelling Python's `str.lower()` on format tokens. -/
def strLower (s : String) : String := String.mk (s.data.map Char.toLower)

/-- `data_extractor.py` `DataExporter.SUPPORTED_FORMATS`: the enumerated
format set, each with its output extension. -/
def SUPPORTED_FORMATS : List (String × String) :=
  [("geojson", ".geojson"), ("shapefile", ".shp"), ("gpkg", ".gpkg"),
   ("filegdb", ".gdb"), ("csv", ".csv"), ("parquet", ".parquet")]

/-- The keys of `SUPPORTED_FORMATS` (what `format in SUPPORTED_FORMATS`
tests in Python). -/
def supportedKeys : List String := SUPPORTED_FORMATS.map Prod.fst

/-- Extension registered for a format in `SUPPORTED_FORMATS`. -/
def formatExtension (format : String) : String :=
  ((SUPPORTED_FORMATS.find? (fun p => p.fst == format)).map Prod.snd).getD ""

/-- `data_extractor.py` `DataExporter.export` (named `export_one` here
because `export` is reserved in Lean): lowercases the format, returns
`False` for a format outside the enumerated set, and otherwise attempts
the write, whose success is abstracted by the `writeOk` oracle (covering
the csv / parquet / standard-driver branches and, for `filegdb`, the
`.gdb` path coercion and the primary/fallback driver attempts of
`_export_filegdb`). -/
def export_one (writeOk : String → String → Bool) (output_path format0 : String) : Bool :=
  if supportedKeys.contains (strLower format0) then
    if strLower format0 == "filegdb" then
      writeOk "filegdb"
        (if output_path.endsWith ".gdb" then output_path else output_path ++ ".gdb")
    else writeOk (strLower format0) output_path
  else false

/-- One iteration of the `for format in formats` loop of
`DataExporter.export_multiple`: skip a format not in the enumerated set
(no membership lowercasing), otherwise record `results[format] =
output_path` on success and `results[format] = None` on failure. The
Python dict is modelled as a lookup function (`none` = key absent). -/
def export_step (writeOk : String → String → Bool) (output_dir base_name : String)
    (results : String → Option (Option String)) (format : String) :
    String → Option (Option String) :=
  if supportedKeys.contains format then
    if export_one writeOk (output_dir ++ "/" ++ base_name ++ formatExtension format) format then
      fun k =>
        if k == format then
          some (some (output_dir ++ "/" ++ base_name ++ formatExtension format))
        else results k
    else
      fun k => if k == format then some none else results k
  else results

/-- `data_extractor.py` `DataExporter.export_multiple`: fold the per-format
step over the requested format list, starting from the empty dict. -/
def export_multiple (writeOk : String → String → Bool) (output_dir base_name : String)
    (formats : List String) : String → Option (Option String) :=
  formats.foldl (export_step writeOk output_dir base_name) (fun _ => none)

/-- What one export step stores at any key: it writes only at its own
format's key (when that format is supported), and leaves every other key
to the accumulated dict. -/
theorem export_step_apply (writeOk : String → String → Bool)
    (output_dir base_name : String) (m : String → Option (Option String))
    (g fmt : String) :
    export_step writeOk output_dir base_name m g fmt =
      if supportedKeys.contains g = true ∧ fmt = g then
        some (if export_one writeOk (output_dir ++ "/" ++ base_name ++ formatExtension g) g
              then some (output_dir ++ "/" ++ base_name ++ formatExtension g)
              else none)
      else m fmt := by
  unfold export_step
  by_cases hg : g ∈ supportedKeys
  · by_cases hfg : fmt = g
    · subst hfg
      by_cases hex : export_one writeOk (output_dir ++ "/" ++ base_name ++ formatExtension fmt) fmt
      · simp [hg, hex]
      · simp [hg, hex]
    · by_cases hex : export_one writeOk (output_dir ++ "/" ++ base_name ++ formatExtension g) g
      · simp [hg, hex, hfg]
      · simp [hg, hex, hfg]
  · simp [hg]

/-- Lookup in the dict built by the `export_multiple` fold: a key holds the
per-format export outcome when it is a supported member of the requested
list, and is untouched otherwise. -/
theorem export_foldl_lookup (writeOk : String → String → Bool)
    (output_dir base_name : String) :
    ∀ (formats : List String) (m : String → Option (Option String)) (fmt : String),
      formats.foldl (export_step writeOk output_dir base_name) m fmt =
        if supportedKeys.contains fmt = true ∧ fmt ∈ formats then
          some (if export_one writeOk (output_dir ++ "/" ++ base_name ++ formatExtension fmt) fmt
                then some (output_dir ++ "/" ++ base_name ++ formatExtension fmt)
                else none)
        else m fmt := by
  intro formats
  induction formats with
  | nil => intro m fmt; simp
  | cons g gs ih =>
    intro m fmt
    rw [List.foldl_cons, ih, export_step_apply]
    by_cases hks : fmt ∈ supportedKeys
    · by_cases hmem : fmt ∈ gs
      · simp [hks, hmem]
      · by_cases heq : fmt = g
        · subst heq
          simp [hks, hmem]
        · simp [hks, hmem, heq, List.mem_cons]
    · by_cases heq : fmt = g
      · subst heq
        simp [hks]
      · simp [hks, heq]

/-- C5 counterexample: with every underlying write failing, the single
supported requested format "geojson" is present in the result mapping with
a null path (`results["geojson"] = None`), not absent as the claim states. -/
theorem c5_export_multiple_counterexample :
    export_multiple (fun _ _ => false) "out" "base" ["geojson"] "geojson" =
      some none ∧
    export_multiple (fun _ _ => false) "out" "base" ["geojson"] "geojson" ≠
      none := by
  refine ⟨?_, ?_⟩ <;> decide

/-- C5 (amended): in the mapping returned by `export_multiple`, any format
outside the enumerated set is absent (whether or not it was requested), a
supported format that was not requested is absent, and a supported
requested format is always present: it maps to its output path when its
export succeeds and to a null value (`None` — a present entry, not an
absent one) when its export fails. -/
theorem c5_export_multiple_spec :
    ∀ (writeOk : String → String → Bool) (output_dir base_name : String)
      (formats : List String) (fmt : String),
      (supportedKeys.contains fmt = false →
        export_multiple writeOk output_dir base_name formats fmt = none) ∧
      (supportedKeys.contains fmt = true → fmt ∉ formats →
        export_multiple writeOk output_dir base_name formats fmt = none) ∧
      (supportedKeys.contains fmt = true → fmt ∈ formats →
        export_multiple writeOk output_dir base_name formats fmt =
          some (if export_one writeOk
                    (output_dir ++ "/" ++ base_name ++ formatExtension fmt) fmt
                then some (output_dir ++ "/" ++ base_name ++ formatExtension fmt)
                else none)) := by
  intro W d bn formats fmt
  refine ⟨?_, ?_, ?_⟩
  · intro h
    have h' : fmt ∉ supportedKeys := by simpa using h
    unfold export_multiple
    rw [export_foldl_lookup]
    simp [h']
  · intro _ hmem
    unfold export_multiple
    rw [export_foldl_lookup]
    simp [hmem]
  · intro h hmem
    have h' : fmt ∈ supportedKeys := by simpa using h
    unfold export_multiple
    rw [export_foldl_lookup]
    simp [h', hmem]

/-- Witness for C5's amended theorem: a successful export of the single
requested format "geojson" is present and maps to its output path. -/
theorem c5_export_multiple_witness :
    export_multiple (fun _ _ => true) "out" "base" ["geojson"] "geojson" =
      some (some "out/base.geojson") := by
  have h := (c5_export_multiple_spec (fun _ _ => true) "out" "base"
      ["geojson"] "geojson").2.2 (by decide) (by decide)
  rw [h]
  decide

/-- C10: `DataExporter.export` lowercases its format argument before
dispatch, so the uppercase token "GeoJSON" dispatches to the geojson
writer; `DataExporter.export_multiple` tests membership without
lowercasing, so the same token is skipped as unsupported and the result
mapping stays empty. -/
theorem c10_format_case_sensitivity :
    ∀ (writeOk : String → String → Bool) (output_path output_dir base_name : String),
      export_one writeOk output_path "GeoJSON" = writeOk "geojson" output_path ∧
      export_multiple writeOk output_dir base_name ["GeoJSON"] = fun _ => none := by
  intro W p d bn
  constructor
  · show export_one W p "GeoJSON" = W "geojson" p
    unfold export_one
    rw [show strLower "GeoJSON" = "geojson" from by decide]
    rw [if_pos (by decide), if_neg (by decide)]
  · rfl

/-- Python truthiness of an optional environment-variable value: `None`
and the empty string are falsy (what `all([...])` tests in
`BoxConfig.from_env`). -/
def pyFalsy : Option String → Bool
  | none => true
  | some s => s == ""

/-- `config.py` `BoxConfig`: Box.com credentials plus an optional
metadata-template key. -/
structure BoxConfig where
  client_id : String
  client_secret : String
  access_token : String
  folder_id : String
  metadata_template_key : Option String
deriving DecidableEq, Repr

/-- `config.py` `BoxConfig.from_env`: reads the five environment variables
(the environment is modelled as a lookup function); returns `None` when
`not all([client_id, client_secret, access_token, folder_id])`, i.e. when
any of the four required values is missing or falsy (empty string), and
otherwise the fully populated config. The `getD` defaults are never used:
the guard guarantees all four values are present. -/
def BoxConfig.from_env (env : String → Option String) : Option BoxConfig :=
  if pyFalsy (env "BOX_CLIENT_ID") || pyFalsy (env "BOX_CLIENT_SECRET") ||
     pyFalsy (env "BOX_ACCESS_TOKEN") || pyFalsy (env "BOX_FOLDER_ID") then
    none
  else
    some ⟨(env "BOX_CLIENT_ID").getD "", (env "BOX_CLIENT_SECRET").getD "",
          (env "BOX_ACCESS_TOKEN").getD "", (env "BOX_FOLDER_ID").getD "",
          env "BOX_METADATA_TEMPLATE_KEY"⟩

/-- A concrete environment with all four required variables present but
the client id set to the empty string. -/
def envEmptyClientId : String → Option String := fun k =>
  if k == "BOX_CLIENT_ID" then some ""
  else if k == "BOX_CLIENT_SECRET" then some "s"
  else if k == "BOX_ACCESS_TOKEN" then some "t"
  else if k == "BOX_FOLDER_ID" then some "f"
  else none

/-- C9 counterexample: all four required environment variables are present
(one of them the empty string), yet `from_env` returns "no configuration",
because Python's `all` treats the empty string as falsy — contradicting
the claim that presence of all four yields a fully populated config. -/
theorem c9_from_env_counterexample :
    (envEmptyClientId "BOX_CLIENT_ID").isSome = true ∧
    (envEmptyClientId "BOX_CLIENT_SECRET").isSome = true ∧
    (envEmptyClientId "BOX_ACCESS_TOKEN").isSome = true ∧
    (envEmptyClientId "BOX_FOLDER_ID").isSome = true ∧
    BoxConfig.from_env envEmptyClientId = none := by
  refine ⟨?_, ?_, ?_, ?_, ?_⟩ <;> decide

/-- C9 (amended): `from_env` returns "no configuration" whenever any of
the four required environment variables is absent or set to the empty
string — never a partially filled object — and returns the fully populated
config (optional metadata-template key passed through) exactly when all
four are present and non-empty. -/
theorem c9_from_env_spec :
    (∀ env : String → Option String,
       env "BOX_CLIENT_ID" = none ∨ env "BOX_CLIENT_ID" = some "" ∨
       env "BOX_CLIENT_SECRET" = none ∨ env "BOX_CLIENT_SECRET" = some "" ∨
       env "BOX_ACCESS_TOKEN" = none ∨ env "BOX_ACCESS_TOKEN" = some "" ∨
       env "BOX_FOLDER_ID" = none ∨ env "BOX_FOLDER_ID" = some "" →
       BoxConfig.from_env env = none) ∧
    (∀ (env : String → Option String) (a b c d : String),
       env "BOX_CLIENT_ID" = some a → env "BOX_CLIENT_SECRET" = some b →
       env "BOX_ACCESS_TOKEN" = some c → env "BOX_FOLDER_ID" = some d →
       a ≠ "" → b ≠ "" → c ≠ "" → d ≠ "" →
       BoxConfig.from_env env =
         some ⟨a, b, c, d, env "BOX_METADATA_TEMPLATE_KEY"⟩) := by
  constructor
  · intro env h
    unfold BoxConfig.from_env
    rcases h with h | h | h | h | h | h | h | h <;> simp [pyFalsy, h]
  · intro env a b c d ha hb hc hd hna hnb hnc hnd
    unfold BoxConfig.from_env
    rw [ha, hb, hc, hd]
    simp [pyFalsy, hna, hnb, hnc, hnd]

/-- A concrete environment with all four required variables present and
non-empty. -/
def envAllSet : String → Option String := fun k =>
  if k == "BOX_CLIENT_ID" then some "id"
  else if k == "BOX_CLIENT_SECRET" then some "sec"
  else if k == "BOX_ACCESS_TOKEN" then some "tok"
  else if k == "BOX_FOLDER_ID" then some "fold"
  else none

/-- A concrete environment with every variable set to "x" except the
client secret, which is set to the empty string. -/
def envEmptySecret : String → Option String := fun k =>
  if k == "BOX_CLIENT_SECRET" then some "" else some "x"

/-- Witness for C9's amended theorem: the populated direction at a
concrete fully-set environment, and the empty-string direction at a
concrete environment whose client secret alone is empty. -/
theorem c9_from_env_witness :
    BoxConfig.from_env envAllSet = some ⟨"id", "sec", "tok", "fold", none⟩ ∧
    BoxConfig.from_env envEmptySecret = none := by
  constructor
  · have h := c9_from_env_spec.2 envAllSet "id" "sec" "tok" "fold"
      (by decide) (by decide) (by decide) (by decide)
      (by decide) (by decide) (by decide) (by decide)
    rw [h]
    decide
  · exact c9_from_env_spec.1 envEmptySecret
      (Or.inr (Or.inr (Or.inr (Or.inl (by decide)))))

/-- A value of the geometry column handed to
`DuckDBSpatialExtractor.to_geodataframe`: a falsy value (`None`/empty, the
`if x else None` guard of the decode lambdas), an already-structured
geometry object (has `__geo_interface__`), or an encoded (bytes/text)
payload. Payloads and geometry objects are identified abstractly by a
natural number. -/
inductive GeomValue where
  | nullv : GeomValue
  | structured : Nat → GeomValue
  | encoded : Nat → GeomValue
deriving DecidableEq, Repr

/-- `hasattr(value, "__geo_interface__")`. -/
def hasGeoInterface : GeomValue → Bool
  | .structured _ => true
  | _ => false

/-- An entry of the resulting geometry series: the original value passed
through unchanged, a decoded geometry object, or `None` (from a falsy
input value). -/
inductive GeomEntry where
  | passthrough : GeomValue → GeomEntry
  | decoded : Nat → GeomEntry
  | noneEntry : GeomEntry
deriving DecidableEq, Repr

/-- The decode lambda `lambda x: loads(x) if x else None` applied to one
value; `none` models the decoder raising (which aborts the whole
`Series.apply`). The decoder itself (`shapely.wkb.loads` or
`shapely.wkt.loads`) is an oracle parameter. -/
def decodeValue (loads : GeomValue → Option Nat) (v : GeomValue) : Option GeomEntry :=
  if v = .nullv then some .noneEntry
  else
    match loads v with
    | some g => some (.decoded g)
    | none => none

/-- `df[geom_col].apply(lambda x: loads(x) if x else None)`: all-or-nothing
over the whole column — any raising value aborts the apply. -/
def applyDecode (loads : GeomValue → Option Nat) : List GeomValue → Option (List GeomEntry)
  | [] => some []
  | v :: vs =>
    match decodeValue loads v, applyDecode loads vs with
    | some e, some es => some (e :: es)
    | _, _ => none

/-- `data_extractor.py` `DuckDBSpatialExtractor.to_geodataframe`, geometry
conversion (lines 128-146): if the FIRST value of the column has
`__geo_interface__` the whole column is used unchanged; otherwise WKB
decoding is attempted over the whole column, on failure WKT decoding over
the whole column, and if that also fails the conversion raises (`none`).
The empty column is the `df.empty` early return. -/
def normalizeGeometry (wkbLoads wktLoads : GeomValue → Option Nat) :
    List GeomValue → Option (List GeomEntry)
  | [] => none
  | v :: vs =>
    if hasGeoInterface v then some ((v :: vs).map .passthrough)
    else
      match applyDecode wkbLoads (v :: vs) with
      | some es => some es
      | none =>
        match applyDecode wktLoads (v :: vs) with
        | some es => some es
        | none => none

/-- Modelled from the spec: the per-value interpretation order the claim
describes — "each value of the geometry column is interpreted
independently and in order: an already-structured geometry object passes
through unchanged; otherwise WKB decoding is attempted, and if that fails
WKT decoding; a value matching none of the three is a fatal error". Stated
for comparison with `normalizeGeometry`, which is translated from the
code. -/
def specNormalizeGeometry (wkbLoads wktLoads : GeomValue → Option Nat)
    (col : List GeomValue) : Option (List GeomEntry) :=
  col.mapM fun v =>
    if hasGeoInterface v then some (.passthrough v)
    else if v = .nullv then some .noneEntry
    else
      match wkbLoads v with
      | some g => some (.decoded g)
      | none =>
        match wktLoads v with
        | some g => some (.decoded g)
        | none => none

/-- WKB decoder oracle that decodes exactly the encoded payload 0. -/
def wkbOnly0 : GeomValue → Option Nat :=
  fun v => if v = .encoded 0 then some 42 else none

/-- WKT decoder oracle that decodes nothing. -/
def wktNever : GeomValue → Option Nat := fun _ => none

/-- C6 counterexample: for the column [encoded 0, structured 1] with a WKB
decoder that handles exactly the first value, the per-value interpretation
the claim describes succeeds (first value WKB-decoded, second passed
through), but the code fails the whole conversion: the structured second
value makes the column-wide WKB apply raise, the column-wide WKT retry
then fails on the first value, and the conversion aborts. -/
theorem c6_normalize_geometry_counterexample :
    normalizeGeometry wkbOnly0 wktNever [.encoded 0, .structured 1] = none ∧
    specNormalizeGeometry wkbOnly0 wktNever [.encoded 0, .structured 1] =
      some [.decoded 42, .passthrough (.structured 1)] := by
  refine ⟨?_, ?_⟩ <;> decide

/-- The entry the column-wide apply produces for one value, when the apply
succeeds. -/
def entryOf (loads : GeomValue → Option Nat) (v : GeomValue) : GeomEntry :=
  if v = .nullv then .noneEntry
  else
    match loads v with
    | some g => .decoded g
    | none => .noneEntry

/-- The column-wide apply succeeds when every non-falsy value decodes, and
then produces the pointwise entries. -/
theorem applyDecode_eq_some (loads : GeomValue → Option Nat) :
    ∀ col : List GeomValue,
      (∀ x ∈ col, x ≠ GeomValue.nullv → (loads x).isSome = true) →
      applyDecode loads col = some (col.map (entryOf loads)) := by
  intro col
  induction col with
  | nil => intro _; rfl
  | cons v vs ih =>
    intro h
    have hv : decodeValue loads v = some (entryOf loads v) := by
      by_cases hnv : v = GeomValue.nullv
      · subst hnv; rfl
      · obtain ⟨g, hg⟩ := Option.isSome_iff_exists.mp
          (h v (List.mem_cons_self v vs) hnv)
        simp [decodeValue, entryOf, hnv, hg]
    have hvs := ih (fun x hx => h x (List.mem_cons_of_mem v hx))
    simp [applyDecode, hv, hvs]

/-- The column-wide apply raises as soon as some non-falsy value fails to
decode. -/
theorem applyDecode_eq_none (loads : GeomValue → Option Nat) :
    ∀ col : List GeomValue,
      (∃ x ∈ col, x ≠ GeomValue.nullv ∧ loads x = none) →
      applyDecode loads col = none := by
  intro col
  induction col with
  | nil => rintro ⟨x, hx, -⟩; cases hx
  | cons v vs ih =>
    rintro ⟨x, hx, hnv, hload⟩
    rcases List.mem_cons.mp hx with h | h
    · subst h
      have hv : decodeValue loads x = none := by
        simp [decodeValue, hnv, hload]
      cases happ : applyDecode loads vs <;> simp [applyDecode, hv, happ]
    · have hvs := ih ⟨x, h, hnv, hload⟩
      cases hdv : decodeValue loads v <;> simp [applyDecode, hdv, hvs]

/-- C6 (amended): geometry interpretation in `to_geodataframe` is
column-level, not per-value: if the first value of the column is an
already-structured geometry, the entire column passes through unchanged
(later values included, whatever they are); otherwise WKB decoding is
attempted over the whole column and succeeds only if every non-falsy value
WKB-decodes; on any WKB failure, WKT decoding is attempted over the whole
column under the same all-or-nothing rule; if that also fails anywhere the
whole conversion fails, with no per-row skip (falsy values map to `None`
without decoding). -/
theorem c6_normalize_geometry_spec :
    ∀ (wkbLoads wktLoads : GeomValue → Option Nat) (v : GeomValue)
      (vs : List GeomValue),
      (hasGeoInterface v = true →
        normalizeGeometry wkbLoads wktLoads (v :: vs) =
          some ((v :: vs).map .passthrough)) ∧
      (hasGeoInterface v = false →
        ((∀ x ∈ v :: vs, x ≠ GeomValue.nullv → (wkbLoads x).isSome = true) →
          normalizeGeometry wkbLoads wktLoads (v :: vs) =
            some ((v :: vs).map (entryOf wkbLoads))) ∧
        ((∃ x ∈ v :: vs, x ≠ GeomValue.nullv ∧ wkbLoads x = none) →
          ((∀ x ∈ v :: vs, x ≠ GeomValue.nullv → (wktLoads x).isSome = true) →
            normalizeGeometry wkbLoads wktLoads (v :: vs) =
              some ((v :: vs).map (entryOf wktLoads))) ∧
          ((∃ x ∈ v :: vs, x ≠ GeomValue.nullv ∧ wktLoads x = none) →
            normalizeGeometry wkbLoads wktLoads (v :: vs) = none))) := by
  intro wkbLoads wktLoads v vs
  constructor
  · intro h
    simp [normalizeGeometry, h]
  · intro h
    constructor
    · intro hall
      have := applyDecode_eq_some wkbLoads (v :: vs) hall
      simp [normalizeGeometry, h, this]
    · intro hex
      have hwkb := applyDecode_eq_none wkbLoads (v :: vs) hex
      constructor
      · intro hall
        have := applyDecode_eq_some wktLoads (v :: vs) hall
        simp [normalizeGeometry, h, hwkb, this]
      · intro hex2
        have := applyDecode_eq_none wktLoads (v :: vs) hex2
        simp [normalizeGeometry, h, hwkb, this]

/-- Witness for C6's amended theorem: a column whose first value is
structured passes through whole, including the undecodable second value. -/
theorem c6_normalize_geometry_witness :
    normalizeGeometry wkbOnly0 wktNever [.structured 5, .encoded 9] =
      some [.passthrough (.structured 5), .passthrough (.encoded 9)] :=
  (c6_normalize_geometry_spec wkbOnly0 wktNever (.structured 5) [.encoded 9]).1 rfl

/-- One response of the ArcGIS pagination loop of
`api_downloader.py` `_download_arcgis_rest`, as seen after
`download_with_http_client`: `parsed` is a DataFrame WITHOUT a `body`
column (what `download_with_http_client` returns when it pre-parses a
JSON body — in particular every `f=geojson` feature response), `raw` is a
DataFrame that kept its `body` column, whose JSON carries the given
feature list. Features are identified abstractly by naturals. -/
inductive ArcPage where
  | parsed : ArcPage
  | raw : List Nat → ArcPage
deriving DecidableEq, Repr

/-- The `while True` pagination loop of `_download_arcgis_rest` (lines
263-281), with the responses delivered by `resp` (indexed by request
number) and an explicit fuel: when the response has a `body` column the
loop breaks on zero features or on a short page (fewer than `limit`) and
otherwise accumulates and advances the offset; when the response has NO
`body` column the loop body does nothing — no break, no accumulation, no
offset change — and the same request is issued again. `none` means the
loop did not finish within `fuel` iterations. -/
def arcgis_rest_loop (resp : Nat → ArcPage) (limit : Nat) :
    Nat → Nat → Nat → List Nat → Option (List Nat)
  | 0, _, _, _ => none
  | fuel + 1, reqIdx, offset, acc =>
    match resp reqIdx with
    | .parsed => arcgis_rest_loop resp limit fuel (reqIdx + 1) offset acc
    | .raw features =>
      if features = [] then some acc
      else if features.length < limit then some (acc ++ features)
      else arcgis_rest_loop resp limit fuel (reqIdx + 1) (offset + limit) (acc ++ features)

/-- C7: the ArcGIS pagination loop does NOT terminate for every sequence
of responses — when every response lacks a `body` column (the shape
`download_with_http_client` produces for the `f=geojson` responses this
loop requests) the loop never finishes, for any fuel, any limit and any
starting state; by contrast, with a `body`-bearing empty page the loop
stops immediately with the accumulated features, as the claim describes. -/
theorem c7_arcgis_loop_not_always_terminating :
    (∀ (limit fuel reqIdx offset : Nat) (acc : List Nat),
       arcgis_rest_loop (fun _ => ArcPage.parsed) limit fuel reqIdx offset acc = none) ∧
    (∀ (limit fuel reqIdx offset : Nat) (acc : List Nat),
       arcgis_rest_loop (fun _ => ArcPage.raw []) limit (fuel + 1) reqIdx offset acc =
         some acc) := by
  constructor
  · intro limit fuel
    induction fuel with
    | zero => intro reqIdx offset acc; rfl
    | succ n ih => intro reqIdx offset acc; exact ih (reqIdx + 1) offset acc
  · intro limit fuel reqIdx offset acc
    rfl

/-- One HTTP request issued by the OGC API pagination loop: the URL
fetched and the query parameters sent with it. -/
structure OgcRequest where
  url : String
  params : List (String × String)
deriving DecidableEq, Repr

/-- One response of the OGC pagination loop of
`api_downloader.py` `_download_ogc_api`: `parsed` is a DataFrame without a
`body` column (the loop breaks), `raw` keeps its `body` column whose JSON
carries a feature list and the `href` of its "next"-relation link if one
exists (`none` also covers a falsy href, which ends the `while next_url`
loop the same way). -/
inductive OgcPage where
  | parsed : OgcPage
  | raw : List Nat → Option String → OgcPage
deriving DecidableEq, Repr

/-- The `while next_url` pagination loop of `_download_ogc_api` (lines
335-349), with responses delivered by `resp` (indexed by request number),
an explicit fuel, and the issued requests recorded in `trace`: each
iteration fetches `nextUrl` with the current `params`; a `body`-bearing
response extends the accumulator, takes the next URL from the "next" link
and clears the params (`params = {}`) for every subsequent request; a
response without a `body` column breaks. `none` means the loop did not
finish within `fuel` iterations. -/
def ogc_api_loop (resp : Nat → OgcPage) :
    Nat → Nat → Option String → List (String × String) → List Nat →
    List OgcRequest → Option (List Nat × List OgcRequest)
  | fuel, reqIdx, nextUrl, params, acc, trace =>
    match nextUrl with
    | none => some (acc, trace)
    | some url =>
      match fuel with
      | 0 => none
      | fuel + 1 =>
        match resp reqIdx with
        | .parsed => some (acc, trace ++ [⟨url, params⟩])
        | .raw features next =>
          ogc_api_loop resp fuel (reqIdx + 1) next [] (acc ++ features)
            (trace ++ [⟨url, params⟩])

/-- A concrete two-page response sequence with the `body` column intact:
page one carries features 1, 2 and a "next" link, page two carries
feature 3 and no "next" link. -/
def respTwoPages : Nat → OgcPage := fun n =>
  if n = 0 then .raw [1, 2] (some "page2") else .raw [3] none

/-- C8: the OGC API fetch silently truncates. A response whose JSON body
is a feature collection is pre-parsed by `download_with_http_client`
(lines 102-117) into a DataFrame WITHOUT a `body` column — exactly the
responses an items request produces — so the loop takes the `else: break`
on its very first iteration: one request is issued, no features are
accumulated, and the "next" link (discarded by the pre-parsing) is never
followed, for every fuel; the claim's two-request / concatenation
behavior would occur only if the pages reached the loop with their `body`
column intact (second conjunct, at the concrete two-page sequence
`respTwoPages`, where the second request is indeed sent with cleared
params and the features concatenated). -/
theorem c8_ogc_loop_truncates_on_parsed_pages :
    (∀ (p0 : List (String × String)) (u1 : String) (fuel : Nat),
       ogc_api_loop (fun _ => OgcPage.parsed) (fuel + 1) 0 (some u1) p0 [] [] =
         some ([], [⟨u1, p0⟩])) ∧
    (∀ fuel : Nat,
       ogc_api_loop respTwoPages (fuel + 2) 0 (some "page1") [("f", "json")] [] [] =
         some ([1, 2, 3], [⟨"page1", [("f", "json")]⟩, ⟨"page2", []⟩])) := by
  constructor
  · intro p0 u1 fuel
    rfl
  · intro fuel
    simp [ogc_api_loop, respTwoPages]
